import Mathlib

/-!
Verification development for the youtube-video-extractor repository.

The Python sources are embedded shallowly:
- src/yt_extractor/extractor.py : the entry tree returned by the listing
  backend, the flattening loop and the video-record construction.
- src/yt_extractor/exporter.py : row building, sorting and filename
  sanitization.
- src/yt_extractor/config_loader.py : YAML-like values, validation and the
  enabled-channel filter.
- src/yt_extractor/config.py : the backend option table.
- src/yt_extractor/__main__.py : the batch orchestration loop.

Python dictionaries are modelled as association lists (insertion order
preserved, unique keys), optional dictionary fields as Option, and raised
exceptions as Except values.
-/

namespace YtExtractor

/-! ## Extractor data model (extractor.py) -/

/-- One node of the entry tree returned by the listing backend.  A field
holding none models a key absent from the underlying dictionary.  In a list
of sub-entries, a none element models a Python-falsy entry (None or an empty
dictionary), which the source skips with the checks `if not entry` and
`if e`. -/
inductive Entry where
  | mk : (ty : Option String) → (id : Option String) → (title : Option String) →
      (description : Option String) → (upload_date : Option String) →
      (release_timestamp : Option String) → (entries : List (Option Entry)) → Entry

/-- The `_type` key of an entry. -/
def Entry.ty : Entry → Option String
  | .mk t _ _ _ _ _ _ => t

/-- The `id` key of an entry. -/
def Entry.id : Entry → Option String
  | .mk _ i _ _ _ _ _ => i

/-- The `title` key of an entry. -/
def Entry.title : Entry → Option String
  | .mk _ _ t _ _ _ _ => t

/-- The `description` key of an entry. -/
def Entry.description : Entry → Option String
  | .mk _ _ _ d _ _ _ => d

/-- The `upload_date` key of an entry. -/
def Entry.upload_date : Entry → Option String
  | .mk _ _ _ _ u _ _ => u

/-- The `release_timestamp` key of an entry. -/
def Entry.release_timestamp : Entry → Option String
  | .mk _ _ _ _ _ r _ => r

/-- The `entries` key of an entry (its sub-entries, as `entry.get("entries", [])`). -/
def Entry.subEntries : Entry → List (Option Entry)
  | .mk _ _ _ _ _ _ es => es

/-- A video record as built by `VideoExtractor.extract` and consumed by
`ExcelExporter`.  The exporter reads each field with `dict.get`, so every
field is optional at that interface; the extractor itself always populates
all five keys. -/
structure Video where
  id : Option String
  title : Option String
  description : Option String
  url : Option String
  upload_date : Option String

/-- Flattening loop of `VideoExtractor.extract` (extractor.py lines 60-72):
skip falsy entries, expand an entry whose `_type` is "playlist" one level by
appending its own non-falsy sub-entries, and append any other entry as a
direct video item. -/
def flattenEntries : List (Option Entry) → List Entry
  | [] => []
  | none :: rest => flattenEntries rest
  | some e :: rest =>
      if e.ty = some "playlist" then
        e.subEntries.filterMap (fun oe => oe) ++ flattenEntries rest
      else
        e :: flattenEntries rest

/-- Video-record construction for one flattened entry (extractor.py lines
76-88): drop the entry when `entry.get("id", "")` is falsy, otherwise build
the record with the fixed watch-URL pattern and the
upload_date / release_timestamp / "" fallback chain. -/
def mkVideo (e : Entry) : Option Video :=
  let video_id := e.id.getD ""
  if video_id = "" then none
  else some
    { id := some video_id
      title := some (e.title.getD "")
      description := some (e.description.getD "")
      url := some ("https://www.youtube.com/watch?v=" ++ video_id)
      upload_date := some (e.upload_date.getD (e.release_timestamp.getD "")) }

/-- The record-building loop over all flattened entries. -/
def buildVideos (es : List Entry) : List Video :=
  es.filterMap mkVideo

/-- The information object returned by the backend for one channel URL. -/
structure Info where
  channel : Option String
  uploader : Option String
  entries : List (Option Entry)

/-- Model of `VideoExtractor.extract` given the backend's information object
(none models a falsy object, which the source rejects).  Returns the video
list and the channel name resolved as channel / uploader / "unknown". -/
def VideoExtractor.extract (info : Option Info) : Except String (List Video × String) :=
  match info with
  | none => .error "Could not extract channel information"
  | some i =>
      .ok (buildVideos (flattenEntries i.entries), i.channel.getD (i.uploader.getD "unknown"))

/-! ## Exporter (exporter.py, config.py) -/

/-- Fixed column headers from config.py. -/
def EXCEL_COLUMNS : List String := ["ID", "Title", "Description", "URL"]

/-- Sort key of `ExcelExporter.export` (exporter.py line 42): the value of
`x.get("upload_date") or ""`, so an absent or falsy upload date counts as the
empty string. -/
def uploadKey (v : Video) : String := v.upload_date.getD ""

/-- The sorting step of `ExcelExporter.export` (exporter.py lines 40-44):
Python `sorted(..., reverse=True)` is a stable sort placing larger keys
first, which `List.mergeSort` with the reversed comparison reproduces,
including the tie-break by original position. -/
def sortVideos (videos : List Video) : List Video :=
  videos.mergeSort (fun a b => uploadKey b ≤ uploadKey a)

/-- One spreadsheet data row (exporter.py lines 61-66). -/
def videoRow (v : Video) : List String :=
  [v.id.getD "", v.title.getD "", v.description.getD "", v.url.getD ""]

/-- Characters replaced by `ExcelExporter._sanitize_filename`. -/
def invalid_chars : List Char := ['<', '>', ':', '"', '/', '\\', '|', '?', '*']

/-- One pass of `filename.replace(char, "_")` for a single character. -/
def replaceChar (s : String) (c : Char) : String :=
  String.mk (s.data.map (fun x => if x = c then '_' else x))

/-- Python `str.strip(". ")`: remove leading and trailing characters that
are a dot or a space. -/
def stripDotsSpaces (s : String) : String :=
  let p := fun c => c = '.' || c = ' '
  String.mk (((s.data.dropWhile p).reverse.dropWhile p).reverse)

/-- Model of `ExcelExporter._sanitize_filename` (exporter.py lines 115-138):
replace each invalid character in turn, strip dots and spaces at both ends,
truncate to 100 characters, and fall back to "channel" when empty. -/
def ExcelExporter.sanitize_filename (filename : String) : String :=
  let f := invalid_chars.foldl replaceChar filename
  let f := stripDotsSpaces f
  let f := if f.length > 100 then String.mk (f.data.take 100) else f
  if f = "" then "channel" else f

/-- The observable result of a successful export: the sheet rows (header
first, then one row per video in sorted order) and the computed filename. -/
structure ExportResult where
  rows : List (List String)
  filename : String

/-- Python `str.format` restricted to the two placeholders the exporter
passes (exporter.py lines 91-94). -/
def formatFilename (fmt : String) (channel_name date : String) : String :=
  (fmt.replace "\x7bchannel_name\x7d" channel_name).replace "\x7bdate\x7d" date

/-- Model of `ExcelExporter.export` (exporter.py lines 24-104).  The exporter
object holds the video list; the method builds a separately sorted copy,
appends rows read from that copy, and computes the output filename.  The
second component of the result is the exporter's video list after the call:
the source never assigns to `self.videos` nor writes any record field, so it
is the untouched input. -/
def ExcelExporter.export (videos : List Video) (channel_name : String)
    (filename_format : Option String) (current_date : String) :
    ExportResult × List Video :=
  let sorted_videos := sortVideos videos
  let rows := EXCEL_COLUMNS :: sorted_videos.map videoRow
  let fmt := filename_format.getD "\x7bchannel_name\x7d_videos.xlsx"
  let safe_channel_name := ExcelExporter.sanitize_filename channel_name
  let filename := formatFilename fmt safe_channel_name current_date
  (⟨rows, filename⟩, videos)

/-! ## Backend options (config.py, extractor.py) -/

/-- A value stored in the backend option dictionary.  `sslCtx` records the
certificate source the SSL context was built from. -/
inductive OptVal where
  | bool : Bool → OptVal
  | str : String → OptVal
  | sslCtx : String → OptVal
deriving DecidableEq, Repr

/-- Look up a key in an association-list dictionary (first match; Python
dictionaries have unique keys). -/
def dictGet (kvs : List (String × OptVal)) (k : String) : Option OptVal :=
  (kvs.find? (fun kv => kv.1 = k)).map (fun kv => kv.2)

/-- Set a key in an association-list dictionary the way Python assignment
does: replace the first occurrence in place, or append a new key at the
end. -/
def dictSet (kvs : List (String × OptVal)) (k : String) (v : OptVal) :
    List (String × OptVal) :=
  if (kvs.find? (fun kv => kv.1 = k)).isSome then
    kvs.map (fun kv => if kv.1 = k then (k, v) else kv)
  else
    kvs ++ [(k, v)]

/-- Python double-star dictionary merge: start from the first dictionary and
assign every key of the second in order, later keys winning. -/
def dictMerge (a b : List (String × OptVal)) : List (String × OptVal) :=
  b.foldl (fun acc kv => dictSet acc kv.1 kv.2) a

/-- The `YT_DLP_OPTIONS` table from config.py lines 7-13. -/
def YT_DLP_OPTIONS : List (String × OptVal) :=
  [("quiet", .bool true),
   ("no_warnings", .bool true),
   ("extract_flat", .str "in_playlist"),
   ("skip_download", .bool true),
   ("no_check_certificates", .bool true)]

/-- The option dictionary actually passed to the listing backend by
`VideoExtractor.extract` (extractor.py lines 40-44): `YT_DLP_OPTIONS` merged
with an SSL context built from the bundled certifi store and an explicit
`extract_flat` entry. -/
def extractOptions : List (String × OptVal) :=
  dictMerge YT_DLP_OPTIONS
    [("ssl_context", .sslCtx "certifi"), ("extract_flat", .str "in_playlist")]

/-! ## Configuration loader (config_loader.py) -/

/-- A YAML value as returned by the parser.  `null` also models Python
`None`. -/
inductive YVal where
  | null : YVal
  | bool : Bool → YVal
  | str : String → YVal
  | list : List YVal → YVal
  | dict : List (String × YVal) → YVal

/-- Python truthiness of a parsed YAML value. -/
def truthy : YVal → Bool
  | .null => false
  | .bool b => b
  | .str s => s ≠ ""
  | .list xs => !xs.isEmpty
  | .dict kvs => !kvs.isEmpty

/-- Dictionary lookup, `d.get(k)` on a parsed mapping. -/
def yget (kvs : List (String × YVal)) (k : String) : Option YVal :=
  (kvs.find? (fun kv => kv.1 = k)).map (fun kv => kv.2)

/-- Python key assignment on a parsed mapping (replace in place or append). -/
def yset (kvs : List (String × YVal)) (k : String) (v : YVal) :
    List (String × YVal) :=
  if (kvs.find? (fun kv => kv.1 = k)).isSome then
    kvs.map (fun kv => if kv.1 = k then (k, v) else kv)
  else
    kvs ++ [(k, v)]

/-- Python membership test `k in v` on a parsed value: key lookup on a
mapping, element comparison on a sequence, substring test on a string, and a
TypeError (modelled as none) on any scalar. -/
def ymem (k : String) : YVal → Option Bool
  | .dict kvs => some ((yget kvs k).isSome)
  | .list xs => some (xs.any (fun x => match x with | .str s => s = k | _ => false))
  | .str s => some (decide (k.data <:+: s.data))
  | .bool _ => none
  | .null => none

/-- The errors `ConfigLoader.load` can surface.  The source raises
FileNotFoundError for a missing file and ValueError for both the parse
failure and every validation failure; the spec taxonomy distinguishes the
two ValueError families by their messages, which the constructors keep.
`typeError` models a Python TypeError escaping from a membership test or a
subscript on a value of the wrong shape. -/
inductive LoadErr where
  | notFound : LoadErr
  | parseError : String → LoadErr
  | validationError : String → LoadErr
  | typeError : LoadErr

/-- The enabled-defaulting step of the per-channel validation body
(config_loader.py lines 67-68): set `enabled` to true when absent. -/
def applyEnabledDefault (kvs : List (String × YVal)) : List (String × YVal) :=
  if (yget kvs "enabled").isSome then kvs else yset kvs "enabled" (.bool true)

/-- The default-filling tail of the per-channel validation body
(config_loader.py lines 66-72): the enabled default, then the `name`
placeholder "Channel i+1" when `name` is absent, i being the 0-based index
in the unfiltered channel list. -/
def applyChannelDefaults (i : Nat) (kvs : List (String × YVal)) :
    List (String × YVal) :=
  if (yget (applyEnabledDefault kvs) "name").isSome then applyEnabledDefault kvs
  else yset (applyEnabledDefault kvs) "name" (.str ("Channel " ++ toString (i + 1)))

/-- Per-channel body of `ConfigLoader._validate` (config_loader.py lines
59-72) for the channel at 0-based index i: require a mapping with a url,
then fill the `enabled` and `name` defaults in place. -/
def validateChannel (i : Nat) (c : YVal) : Except LoadErr YVal :=
  match c with
  | .dict kvs =>
      if (yget kvs "url").isNone then
        .error (.validationError ("Channel " ++ toString i ++ " missing required url field"))
      else
        .ok (.dict (applyChannelDefaults i kvs))
  | _ => .error (.validationError ("Channel " ++ toString i ++ " must be a dictionary"))

/-- The channel loop of `ConfigLoader._validate`, carrying the enumeration
index: the first failing channel's error propagates, otherwise every channel
is replaced by its defaulted form. -/
def validateChannels (i : Nat) : List YVal → Except LoadErr (List YVal)
  | [] => .ok []
  | c :: cs =>
      match validateChannel i c with
      | .error e => .error e
      | .ok c' =>
          match validateChannels (i + 1) cs with
          | .error e => .error e
          | .ok cs' => .ok (c' :: cs')

/-- Model of `ConfigLoader._validate` (config_loader.py lines 43-72) on the
loaded configuration value: test `"channels" not in self._config`, subscript
the configuration, require a non-empty list, and validate each channel,
returning the configuration with the mutated channel list. -/
def validateConfig (cfg : YVal) : Except LoadErr YVal :=
  match ymem "channels" cfg with
  | none => .error .typeError
  | some false => .error (.validationError "Configuration must contain channels key")
  | some true =>
      match cfg with
      | .dict kvs =>
          match yget kvs "channels" with
          | none => .error .typeError
          | some chv =>
              match chv with
              | .list chans =>
                  if chans.isEmpty then
                    .error (.validationError "At least one channel must be defined")
                  else do
                    let chans' ← validateChannels 0 chans
                    .ok (.dict (yset kvs "channels" (.list chans')))
              | _ => .error (.validationError "channels must be a list")
      | _ => .error .typeError

/-- Model of `ConfigLoader.load` (config_loader.py lines 20-41).  The file
system and the YAML parser are abstracted as inputs: whether the file
exists, and the parse outcome for its text.  A falsy parse result is
replaced by an empty mapping (`yaml.safe_load(f) or \x7b\x7d`). -/
def ConfigLoader.load (fileExists : Bool) (parsed : Except String YVal) :
    Except LoadErr YVal :=
  if !fileExists then .error .notFound
  else
    match parsed with
    | .error m => .error (.parseError ("Invalid YAML configuration: " ++ m))
    | .ok v =>
        let cfg := if truthy v then v else .dict []
        validateConfig cfg

/-- Model of `ConfigLoader.get_enabled_channels` (config_loader.py lines
74-87) on a loaded configuration: read `channels` with an empty default and
keep the channels whose `channel.get("enabled", True)` is truthy.  A
non-mapping element cannot occur in a validated configuration (Python would
raise there); the model excludes it. -/
def getEnabledChannels (cfg : YVal) : List YVal :=
  (match cfg with
   | .dict kvs =>
       match yget kvs "channels" with
       | some (.list l) => l
       | _ => []
   | _ => []).filter
    (fun c => match c with
      | .dict ck => truthy ((yget ck "enabled").getD (.bool true))
      | _ => false)

/-! ## Batch orchestrator (__main__.py) -/

/-- Outcome of one iteration of the channel loop in `process_config_file`.
The name carried by the last three constructors is the effective channel
name the iteration would hand to `ExcelExporter`. -/
inductive ChanResult where
  | failedExtract : ChanResult
  | skippedEmpty : YVal → ChanResult
  | exported : YVal → ChanResult
  | failedExport : YVal → ChanResult

/-- The `name` entry of a channel mapping, `channel.get("name")`. -/
def chanDeclaredName (channel : YVal) : Option YVal :=
  match channel with
  | .dict kvs => yget kvs "name"
  | _ => none

/-- One iteration of the channel loop in `process_config_file`
(__main__.py lines 89-122) for the channel at 1-based position i of the
enabled list: compute the display name with the positional default, extract
(any failure is caught and ends the iteration), replace the name by the
extracted one exactly when the stored name equals the positional placeholder
string, skip when no videos were found, otherwise export (any failure is
caught).  The backend call and the spreadsheet write are abstracted as the
extractRes and exportOk inputs. -/
def channelStep (i : Nat) (channel : YVal)
    (extractRes : Except String (List Video × String)) (exportOk : Bool) :
    ChanResult :=
  let declared := chanDeclaredName channel
  let placeholder := "Channel " ++ toString i
  let channel_name := declared.getD (.str placeholder)
  match extractRes with
  | .error _ => .failedExtract
  | .ok (videos, extracted_name) =>
      let channel_name :=
        match declared with
        | some (.str s) => if s = placeholder then YVal.str extracted_name else .str s
        | _ => channel_name
      if videos.isEmpty then .skippedEmpty channel_name
      else if exportOk then .exported channel_name
      else .failedExport channel_name

/-- The channel loop of `process_config_file`, enumerated from position i.
The oracles give, for each 1-based position, the backend outcome and whether
the spreadsheet write succeeds. -/
def processChannels (i : Nat) (ex : Nat → Except String (List Video × String))
    (ep : Nat → Bool) : List YVal → List ChanResult
  | [] => []
  | c :: cs => channelStep i c (ex i) (ep i) :: processChannels (i + 1) ex ep cs

/-- Batch mode end to end (`main` dispatching to `process_config_file`,
__main__.py lines 22-41 and 71-124): a configuration loader error propagates
to `main`, is caught there and exits with code 1 before any channel is
attempted; otherwise every enabled channel is processed in order, each
iteration catching its own failures, and the run ends normally (exit code
0).  The user-interrupt path (exit code 130) is outside this model. -/
def runBatch (fileExists : Bool) (parsed : Except String YVal)
    (ex : Nat → Except String (List Video × String)) (ep : Nat → Bool) :
    Nat × List ChanResult :=
  match ConfigLoader.load fileExists parsed with
  | .error _ => (1, [])
  | .ok cfg => (0, processChannels 1 ex ep (getEnabledChannels cfg))

/-- Channel-name sanitization as the spec words it, for comparison with the
source-derived `ExcelExporter.sanitize_filename`: replace each of the invalid
characters with an underscore (stated as one simultaneous character map),
strip leading and trailing spaces and dots, truncate to 100 characters, and
substitute the literal "channel" when empty. -/
def sanitizeSpecification (filename : String) : String :=
  let f := String.mk (filename.data.map (fun x => if x ∈ invalid_chars then '_' else x))
  let f := stripDotsSpaces f
  let f := if f.length > 100 then String.mk (f.data.take 100) else f
  if f = "" then "channel" else f

/-- Field lookup on a channel mapping, `channel.get(k)`. -/
def chanField (c : YVal) (k : String) : Option YVal :=
  match c with
  | .dict kvs => yget kvs k
  | _ => none

/-- Specification helper: the list a successful channel-validation pass
produces, every channel defaulted with its 0-based index counted from i. -/
def applyDefaultsFrom (i : Nat) : List (List (String × YVal)) → List YVal
  | [] => []
  | ck :: cks => .dict (applyChannelDefaults i ck) :: applyDefaultsFrom (i + 1) cks

/-! ## Theorems -/

/-- C2 counterexample: the option dictionary that `VideoExtractor.extract`
passes to the listing backend sets `no_check_certificates` to true, so
certificate checking is disabled, not enabled against the bundled
certificates as the claim states. -/
theorem c2_cert_check_disabled :
    dictGet extractOptions "no_check_certificates" = some (OptVal.bool true) := by
  rfl

/-- C2 amended: every extraction call passes options configuring flat
metadata-light mode, no download, quiet operation, and an SSL context built
from the bundled certifi store, but with certificate checking disabled
(`no_check_certificates` set to true). -/
theorem c2_options_amended :
    dictGet extractOptions "extract_flat" = some (OptVal.str "in_playlist") ∧
    dictGet extractOptions "skip_download" = some (OptVal.bool true) ∧
    dictGet extractOptions "ssl_context" = some (OptVal.sslCtx "certifi") ∧
    dictGet extractOptions "no_check_certificates" = some (OptVal.bool true) ∧
    dictGet extractOptions "quiet" = some (OptVal.bool true) ∧
    dictGet extractOptions "no_warnings" = some (OptVal.bool true) := by
  exact ⟨rfl, rfl, rfl, rfl, rfl, rfl⟩

/-- C10: exporting never changes the caller's video list: the exporter sorts
a fresh copy (a permutation of the input), and the list the exporter holds
after the call is exactly the input, records and order untouched. -/
theorem c10_export_frame (videos : List Video) (channel_name : String)
    (fmt : Option String) (date : String) :
    (ExcelExporter.export videos channel_name fmt date).2 = videos ∧
    (sortVideos videos).Perm videos :=
  ⟨rfl, List.mergeSort_perm videos _⟩

/-- C5: flattening expands an entry whose declared type is "playlist"
exactly one level deep, substituting its own non-null sub-entries in place
and in order, takes any other entry as a direct video item, and skips null
entries silently; in particular the tree
playlist(a, b) followed by c flattens to the video ids a, b, c in order. -/
theorem c5_flatten_one_level :
    (∀ entries : List (Option Entry),
      flattenEntries entries = entries.flatMap (fun oe =>
        match oe with
        | none => []
        | some e =>
            if e.ty = some "playlist" then e.subEntries.filterMap (fun x => x)
            else [e])) ∧
    (buildVideos (flattenEntries
        [some (.mk (some "playlist") none none none none none
            [some (.mk none (some "a") none none none none []),
             some (.mk none (some "b") none none none none [])]),
         some (.mk none (some "c") none none none none [])])).map Video.id =
      [some "a", some "b", some "c"] := by
  constructor
  · intro entries
    induction entries with
    | nil => rfl
    | cons oe rest ih =>
        cases oe with
        | none => simpa [flattenEntries] using ih
        | some e =>
            by_cases hty : e.ty = some "playlist"
            · simp [flattenEntries, hty, ih]
            · simp [flattenEntries, hty, ih]
  · rfl

/-- C3: every flattened entry carrying a non-empty id yields a record whose
url is the fixed watch-URL pattern applied to that id and whose upload_date
is the upload-date field when present, else the release-timestamp field when
present, else empty; an entry whose id lookup is empty is dropped; and the
extractor's video list is exactly the per-entry results. -/
theorem c3_video_record_fields (e : Entry) (es : List Entry) :
    (∀ i, e.id = some i → i ≠ "" →
      mkVideo e = some
        { id := some i
          title := some (e.title.getD "")
          description := some (e.description.getD "")
          url := some ("https://www.youtube.com/watch?v=" ++ i)
          upload_date := some (match e.upload_date with
            | some d => d
            | none => match e.release_timestamp with
              | some r => r
              | none => "") }) ∧
    (e.id.getD "" = "" → mkVideo e = none) ∧
    buildVideos es = es.filterMap mkVideo := by
  refine ⟨?_, ?_, rfl⟩
  · intro i hi hne
    simp only [mkVideo, hi, Option.getD_some, if_neg hne]
    cases e.upload_date <;> cases e.release_timestamp <;> rfl
  · intro h
    simp [mkVideo, h]

/-- C3 witness: a concrete entry with an id maps to the expected record, and
a concrete richly-populated entry without an id is dropped. -/
theorem c3_witness :
    mkVideo (.mk none (some "abc") (some "T") none none (some "1700000000") []) =
      some { id := some "abc", title := some "T", description := some "",
             url := some "https://www.youtube.com/watch?v=abc",
             upload_date := some "1700000000" } ∧
    mkVideo (.mk none none (some "T") (some "D") (some "20230101") none []) = none := by
  constructor
  · exact (c3_video_record_fields
      (.mk none (some "abc") (some "T") none none (some "1700000000") []) []).1
      "abc" rfl (by decide)
  · exact (c3_video_record_fields
      (.mk none none (some "T") (some "D") (some "20230101") none []) []).2.1 rfl

/-- C4: the exporter's data rows are built from a copy of the video list
sorted by upload date descending (a permutation of the input, pairwise
ordered with larger keys first, absent or falsy dates counting as the empty
string and therefore placed last); in particular the dates 20230101, empty,
20230301 come out in the order 20230301, 20230101, empty. -/
theorem c4_rows_sorted_desc :
    (∀ (videos : List Video) (name : String) (fmt : Option String) (date : String),
      (ExcelExporter.export videos name fmt date).1.rows =
        EXCEL_COLUMNS :: (sortVideos videos).map videoRow ∧
      (sortVideos videos).Perm videos ∧
      (sortVideos videos).Pairwise (fun a b => uploadKey b ≤ uploadKey a)) ∧
    (sortVideos
        [⟨some "1", none, none, none, some "20230101"⟩,
         ⟨some "2", none, none, none, some ""⟩,
         ⟨some "3", none, none, none, some "20230301"⟩]).map uploadKey =
      ["20230301", "20230101", ""] := by
  constructor
  · intro videos name fmt date
    refine ⟨rfl, List.mergeSort_perm videos _, ?_⟩
    have h := @List.sorted_mergeSort Video
      (fun a b : Video => decide (uploadKey b ≤ uploadKey a))
      (fun a b c hab hbc => by
        simp only [decide_eq_true_eq] at *
        exact le_trans hbc hab)
      (fun a b => by
        simpa using le_total (uploadKey b) (uploadKey a))
      videos
    exact h.imp (fun hd => of_decide_eq_true hd)
  · simp [sortVideos, List.mergeSort, List.merge, uploadKey]
    decide

/-- Replacing a list of characters with underscores one character at a time,
as the source's loop does, equals one simultaneous character map, provided
the underscore itself is not among the replaced characters. -/
theorem foldl_replaceChar_eq_map (cs : List Char) (h : '_' ∉ cs) :
    ∀ s : String, cs.foldl replaceChar s =
      String.mk (s.data.map (fun x => if x ∈ cs then '_' else x)) := by
  induction cs with
  | nil =>
      intro s
      cases s with
      | mk d => simp
  | cons c cs ih =>
      intro s
      have h1 : '_' ∉ cs := fun hm => h (List.mem_cons_of_mem _ hm)
      have hfun : ((fun x => if x ∈ cs then '_' else x) ∘
          (fun x : Char => if x = c then '_' else x)) =
          (fun x : Char => if x ∈ c :: cs then '_' else x) := by
        funext x
        by_cases hxc : x = c
        · subst hxc
          simp [h1]
        · by_cases hxcs : x ∈ cs <;> simp [hxc, hxcs]
      calc (c :: cs).foldl replaceChar s
          = cs.foldl replaceChar (replaceChar s c) := rfl
        _ = String.mk ((replaceChar s c).data.map (fun x => if x ∈ cs then '_' else x)) :=
            ih h1 _
        _ = String.mk (s.data.map (fun x => if x ∈ c :: cs then '_' else x)) := by
            simp only [replaceChar, List.map_map]
            rw [hfun]

set_option maxRecDepth 8000 in
/-- C6: channel-name sanitization agrees, on every input string, with the
spec's description (replace each invalid character with an underscore, strip
leading and trailing spaces and dots, truncate to 100 characters, fall back
to "channel" when empty); in particular the three sample inputs map as the
spec states. -/
theorem c6_sanitize :
    (∀ s, ExcelExporter.sanitize_filename s = sanitizeSpecification s) ∧
    ExcelExporter.sanitize_filename "A/B:C*D" = "A_B_C_D" ∧
    ExcelExporter.sanitize_filename "   ..." = "channel" ∧
    ExcelExporter.sanitize_filename (String.mk (List.replicate 150 'x')) =
      String.mk (List.replicate 100 'x') := by
  refine ⟨?_, by decide, by decide, by decide⟩
  intro s
  unfold ExcelExporter.sanitize_filename sanitizeSpecification
  rw [foldl_replaceChar_eq_map invalid_chars (by decide) s]

/-- Unfolding one step of dictionary lookup. -/
theorem yget_cons (a : String × YVal) (t : List (String × YVal)) (k : String) :
    yget (a :: t) k = if a.1 = k then some a.2 else yget t k := by
  by_cases h : a.1 = k
  · rw [if_pos h]
    unfold yget
    rw [List.find?_cons_of_pos _ (by simpa using h)]
    rfl
  · rw [if_neg h]
    unfold yget
    rw [List.find?_cons_of_neg _ (by simpa using h)]

/-- Looking up a key after the in-place-update branch of assignment:
the updated key reads back the new value, any other key is unchanged. -/
theorem yget_map_set (kvs : List (String × YVal)) (k k' : String) (v : YVal) :
    yget (kvs.map (fun kv => if kv.1 = k then (k, v) else kv)) k' =
      if k' = k then (yget kvs k).map (fun _ => v) else yget kvs k' := by
  induction kvs with
  | nil => by_cases h : k' = k <;> simp [yget, h]
  | cons a t ih =>
      rw [List.map_cons, yget_cons, ih, yget_cons, yget_cons]
      by_cases ha : a.1 = k
      · by_cases hk : k' = k
        · simp [ha, hk]
        · have hk2 : ¬ k = k' := fun he => hk he.symm
          have ha2 : ¬ a.1 = k' := fun he => hk2 (ha ▸ he)
          simp [ha, hk, hk2, ha2]
      · by_cases hk : k' = k
        · simp [ha, hk]
        · simp [ha, hk]

/-- Reading back the key just assigned returns the assigned value. -/
theorem yget_yset_self (kvs : List (String × YVal)) (k : String) (v : YVal) :
    yget (yset kvs k v) k = some v := by
  unfold yset
  by_cases hf : ((kvs.find? (fun kv => kv.1 = k)).isSome : Prop)
  · rw [if_pos hf, yget_map_set, if_pos rfl]
    have : (yget kvs k).isSome := by
      unfold yget
      simpa using hf
    obtain ⟨w, hw⟩ := Option.isSome_iff_exists.mp this
    simp [hw]
  · rw [if_neg hf]
    have hnone : kvs.find? (fun kv => kv.1 = k) = none :=
      Option.not_isSome_iff_eq_none.mp hf
    simp [yget, List.find?_append, hnone, List.find?]

/-- Assigning one key leaves every other key's lookup unchanged. -/
theorem yget_yset_ne (kvs : List (String × YVal)) (k k' : String) (v : YVal)
    (h : k' ≠ k) : yget (yset kvs k v) k' = yget kvs k' := by
  unfold yset
  by_cases hf : ((kvs.find? (fun kv => kv.1 = k)).isSome : Prop)
  · rw [if_pos hf, yget_map_set, if_neg h]
  · rw [if_neg hf]
    have hkk : ¬ (k = k') := fun he => h he.symm
    simp [yget, List.find?_append, List.find?, hkk]

/-- Default filling always leaves a `name` key: the declared name when
present, else the 1-based positional placeholder. -/
theorem applyChannelDefaults_name (i : Nat) (ck : List (String × YVal)) :
    yget (applyChannelDefaults i ck) "name" =
      some ((yget ck "name").getD (.str ("Channel " ++ toString (i + 1)))) := by
  unfold applyChannelDefaults applyEnabledDefault
  by_cases he : ((yget ck "enabled").isSome : Prop)
  · rw [if_pos he]
    by_cases hn : ((yget ck "name").isSome : Prop)
    · rw [if_pos hn]
      obtain ⟨w, hw⟩ := Option.isSome_iff_exists.mp hn
      simp [hw]
    · rw [if_neg hn, yget_yset_self, Option.not_isSome_iff_eq_none.mp hn]
      rfl
  · rw [if_neg he]
    have hne : yget (yset ck "enabled" (.bool true)) "name" = yget ck "name" :=
      yget_yset_ne ck "enabled" "name" (.bool true) (by decide)
    rw [hne]
    by_cases hn : ((yget ck "name").isSome : Prop)
    · rw [if_pos hn, hne]
      obtain ⟨w, hw⟩ := Option.isSome_iff_exists.mp hn
      simp [hw]
    · rw [if_neg hn, yget_yset_self, Option.not_isSome_iff_eq_none.mp hn]
      rfl

/-- Default filling always leaves an `enabled` key: the declared value when
present, else true. -/
theorem applyChannelDefaults_enabled (i : Nat) (ck : List (String × YVal)) :
    yget (applyChannelDefaults i ck) "enabled" =
      some ((yget ck "enabled").getD (.bool true)) := by
  unfold applyChannelDefaults applyEnabledDefault
  by_cases he : ((yget ck "enabled").isSome : Prop)
  · rw [if_pos he]
    obtain ⟨w, hw⟩ := Option.isSome_iff_exists.mp he
    by_cases hn : ((yget ck "name").isSome : Prop)
    · rw [if_pos hn, hw]
      rfl
    · rw [if_neg hn,
        yget_yset_ne ck "name" "enabled" (.str ("Channel " ++ toString (i + 1))) (by decide),
        hw]
      rfl
  · rw [if_neg he]
    have hen : yget (yset ck "enabled" (.bool true)) "enabled" = some (.bool true) :=
      yget_yset_self ck "enabled" (.bool true)
    have hne : yget (yset ck "enabled" (.bool true)) "name" = yget ck "name" :=
      yget_yset_ne ck "enabled" "name" (.bool true) (by decide)
    rw [hne]
    by_cases hn : ((yget ck "name").isSome : Prop)
    · rw [if_pos hn, hen, Option.not_isSome_iff_eq_none.mp he]
      rfl
    · rw [if_neg hn,
        yget_yset_ne _ "name" "enabled" (.str ("Channel " ++ toString (i + 1))) (by decide),
        hen, Option.not_isSome_iff_eq_none.mp he]
      rfl

/-- Default filling touches no key other than `name` and `enabled`. -/
theorem applyChannelDefaults_other (i : Nat) (ck : List (String × YVal))
    (k : String) (h1 : k ≠ "name") (h2 : k ≠ "enabled") :
    yget (applyChannelDefaults i ck) k = yget ck k := by
  unfold applyChannelDefaults applyEnabledDefault
  by_cases he : ((yget ck "enabled").isSome : Prop)
  · rw [if_pos he]
    by_cases hn : ((yget ck "name").isSome : Prop)
    · rw [if_pos hn]
    · rw [if_neg hn, yget_yset_ne _ "name" k _ h1]
  · rw [if_neg he]
    have hne : yget (yset ck "enabled" (.bool true)) "name" = yget ck "name" :=
      yget_yset_ne ck "enabled" "name" (.bool true) (by decide)
    rw [hne]
    by_cases hn : ((yget ck "name").isSome : Prop)
    · rw [if_pos hn, yget_yset_ne _ "enabled" k _ h2]
    · rw [if_neg hn, yget_yset_ne _ "name" k _ h1, yget_yset_ne _ "enabled" k _ h2]

/-- Success characterization of the per-channel validation: the channel is a
mapping with a url, and comes back with its defaults filled. -/
theorem validateChannel_ok_iff (i : Nat) (c c' : YVal) :
    validateChannel i c = .ok c' ↔
      ∃ ck, c = .dict ck ∧ (yget ck "url").isSome ∧
        c' = .dict (applyChannelDefaults i ck) := by
  cases c with
  | null => simp [validateChannel]
  | bool b => simp [validateChannel]
  | str s => simp [validateChannel]
  | list xs => simp [validateChannel]
  | dict ck =>
      by_cases hu : ((yget ck "url").isNone : Prop)
      · simp only [validateChannel, if_pos hu]
        constructor
        · intro h
          exact Except.noConfusion h
        · rintro ⟨ck', hck, hus, _⟩
          injection hck with hckeq
          subst hckeq
          rw [Option.isNone_iff_eq_none.mp hu] at hus
          exact Bool.noConfusion hus
      · have hs : (yget ck "url").isSome := by
          rcases h : yget ck "url" with _ | w
          · exact absurd (Option.isNone_iff_eq_none.mpr h) hu
          · rfl
        simp only [validateChannel, if_neg hu]
        constructor
        · intro h
          exact ⟨ck, rfl, hs, (Except.ok.inj h).symm⟩
        · rintro ⟨ck', hck, _, hc'⟩
          injection hck with hckeq
          subst hckeq
          rw [hc']

/-- The per-channel validation fails only with a validation error. -/
theorem validateChannel_error_shape (i : Nat) (c : YVal) :
    (∃ c', validateChannel i c = .ok c') ∨
      ∃ m, validateChannel i c = .error (.validationError m) := by
  cases c with
  | null => exact .inr ⟨_, rfl⟩
  | bool b => exact .inr ⟨_, rfl⟩
  | str s => exact .inr ⟨_, rfl⟩
  | list xs => exact .inr ⟨_, rfl⟩
  | dict ck =>
      by_cases hu : ((yget ck "url").isNone : Prop)
      · exact .inr ⟨"Channel " ++ toString i ++ " missing required url field",
          by simp [validateChannel, hu]⟩
      · exact .inl ⟨.dict (applyChannelDefaults i ck), by simp [validateChannel, hu]⟩

/-- The channel loop fails only with a validation error. -/
theorem validateChannels_error_shape (cs : List YVal) : ∀ i : Nat,
    (∃ cs', validateChannels i cs = .ok cs') ∨
      ∃ m, validateChannels i cs = .error (.validationError m) := by
  induction cs with
  | nil => intro i; exact .inl ⟨[], rfl⟩
  | cons c cs ih =>
      intro i
      rcases validateChannel_error_shape i c with ⟨c', hc⟩ | ⟨m, hc⟩
      · rcases ih (i + 1) with ⟨cs', hcs⟩ | ⟨m, hcs⟩
        · exact .inl ⟨c' :: cs', by simp [validateChannels, hc, hcs]⟩
        · exact .inr ⟨m, by simp [validateChannels, hc, hcs]⟩
      · exact .inr ⟨m, by simp [validateChannels, hc]⟩

/-- The channel loop succeeds exactly when every channel is a mapping
carrying a url. -/
theorem validateChannels_ok_iff (cs : List YVal) : ∀ i : Nat,
    ((∃ cs', validateChannels i cs = .ok cs') ↔
      ∀ c ∈ cs, ∃ ck, c = .dict ck ∧ (yget ck "url").isSome) := by
  induction cs with
  | nil => intro i; simp [validateChannels]
  | cons c cs ih =>
      intro i
      constructor
      · rintro ⟨cs', h⟩
        cases hc : validateChannel i c with
        | error e => simp [validateChannels, hc] at h
        | ok c' =>
            cases hcs : validateChannels (i + 1) cs with
            | error e => simp [validateChannels, hc, hcs] at h
            | ok cs'' =>
                obtain ⟨ck, hck, hu, _⟩ := (validateChannel_ok_iff i c c').mp hc
                intro x hx
                rcases List.mem_cons.mp hx with rfl | hx
                · exact ⟨ck, hck, hu⟩
                · exact ((ih (i + 1)).mp ⟨cs'', hcs⟩) x hx
      · intro hall
        obtain ⟨ck, hck, hu⟩ := hall c (List.mem_cons_self c cs)
        obtain ⟨cs'', hcs⟩ := (ih (i + 1)).mpr
          (fun x hx => hall x (List.mem_cons_of_mem _ hx))
        have hc : validateChannel i c = .ok (.dict (applyChannelDefaults i ck)) :=
          (validateChannel_ok_iff i c _).mpr ⟨ck, hck, hu, rfl⟩
        exact ⟨.dict (applyChannelDefaults i ck) :: cs'',
          by simp [validateChannels, hc, hcs]⟩

/-- Successful channel validation is exactly default filling with original
indices. -/
theorem validateChannels_ok_struct (cs : List YVal) : ∀ (i : Nat) (cs' : List YVal),
    validateChannels i cs = .ok cs' →
    ∃ cks : List (List (String × YVal)),
      cs = cks.map YVal.dict ∧ cs' = applyDefaultsFrom i cks := by
  induction cs with
  | nil =>
      intro i cs' h
      refine ⟨[], rfl, ?_⟩
      have : ([] : List YVal) = cs' := by simpa [validateChannels] using h
      exact this.symm
  | cons c cs ih =>
      intro i cs' h
      cases hc : validateChannel i c with
      | error e => simp [validateChannels, hc] at h
      | ok c' =>
          cases hcs : validateChannels (i + 1) cs with
          | error e => simp [validateChannels, hc, hcs] at h
          | ok cs'' =>
              simp only [validateChannels, hc, hcs, Except.ok.injEq] at h
              obtain ⟨ck, hck, _, hc'⟩ := (validateChannel_ok_iff i c c').mp hc
              obtain ⟨cks, hcks, hcs''⟩ := ih (i + 1) cs'' hcs
              refine ⟨ck :: cks, ?_, ?_⟩
              · rw [hck, hcks]
                rfl
              · rw [← h, hc', hcs'']
                rfl

/-- Every list produced by default filling has the length of its input. -/
theorem applyDefaultsFrom_length (cks : List (List (String × YVal))) :
    ∀ i, (applyDefaultsFrom i cks).length = cks.length := by
  induction cks with
  | nil => intro i; rfl
  | cons ck cks ih => intro i; simp [applyDefaultsFrom, ih]

/-- Element j of the default-filled list is element j of the input,
defaulted with index i + j. -/
theorem applyDefaultsFrom_get (cks : List (List (String × YVal))) :
    ∀ (i j : Nat) (hj : j < cks.length)
      (hj' : j < (applyDefaultsFrom i cks).length),
      (applyDefaultsFrom i cks).get ⟨j, hj'⟩ =
        .dict (applyChannelDefaults (i + j) (cks.get ⟨j, hj⟩)) := by
  induction cks with
  | nil =>
      intro i j hj _
      exact absurd hj (by simp)
  | cons ck cks ih =>
      intro i j hj hj'
      cases j with
      | zero => simp [applyDefaultsFrom]
      | succ j =>
          have hj2 : j < cks.length := Nat.lt_of_succ_lt_succ hj
          have hj2' : j < (applyDefaultsFrom (i + 1) cks).length := by
            rw [applyDefaultsFrom_length]
            exact hj2
          have harith : i + 1 + j = i + (j + 1) := by omega
          have hg := ih (i + 1) j hj2 hj2'
          simpa [applyDefaultsFrom, harith] using hg

/-- Shape of `ConfigLoader._validate` on a mapping configuration: missing
key, non-list value and empty list each give their validation error,
otherwise the channel loop decides the result and a success stores the
defaulted list back under the channels key. -/
theorem validateConfig_dict (kvs : List (String × YVal)) :
    validateConfig (.dict kvs) =
      match yget kvs "channels" with
      | none => .error (.validationError "Configuration must contain channels key")
      | some (.list chans) =>
          if chans.isEmpty then
            .error (.validationError "At least one channel must be defined")
          else
            match validateChannels 0 chans with
            | .error e => .error e
            | .ok chans' => .ok (.dict (yset kvs "channels" (.list chans')))
      | some _ => .error (.validationError "channels must be a list") := by
  rcases h : yget kvs "channels" with _ | chv
  · simp [validateConfig, ymem, h]
  · cases chv with
    | list chans =>
        by_cases he : (chans.isEmpty : Prop)
        · simp [validateConfig, ymem, h, he]
        · cases hvc : validateChannels 0 chans with
          | error e =>
              simp [validateConfig, ymem, h, he, hvc]
              rfl
          | ok chans' =>
              simp [validateConfig, ymem, h, he, hvc]
              rfl
    | null => simp [validateConfig, ymem, h]
    | bool b => simp [validateConfig, ymem, h]
    | str s => simp [validateConfig, ymem, h]
    | dict kvs2 => simp [validateConfig, ymem, h]

/-- Every member of a default-filled list is some input channel defaulted at
some index. -/
theorem applyDefaultsFrom_mem (cks : List (List (String × YVal))) :
    ∀ (i : Nat) (x : YVal), x ∈ applyDefaultsFrom i cks →
      ∃ (j : Nat) (ck : List (String × YVal)),
        ck ∈ cks ∧ x = .dict (applyChannelDefaults j ck) := by
  induction cks with
  | nil =>
      intro i x hx
      exact absurd hx (by simp [applyDefaultsFrom])
  | cons ck cks ih =>
      intro i x hx
      rcases List.mem_cons.mp hx with rfl | hx2
      · exact ⟨i, ck, List.mem_cons_self ck cks, rfl⟩
      · obtain ⟨j, ck0, hm, he⟩ := ih (i + 1) x hx2
        exact ⟨j, ck0, List.mem_cons_of_mem _ hm, he⟩

/-- C7: when validation passes, every channel that lacked a name carries the
placeholder "Channel i" with i its 1-based position in the original
unfiltered list, every channel that lacked an enabled flag carries
enabled=true, declared values are kept, and (when declared enabled values
are booleans) the enabled-channel accessor returns exactly the channels
whose enabled flag is true, as an order-preserving filter. -/
theorem c7_validate_defaults (kvs : List (String × YVal)) (cs cs' : List YVal)
    (hch : yget kvs "channels" = some (.list cs)) (hne : cs ≠ [])
    (hv : validateChannels 0 cs = .ok cs')
    (henb : ∀ c ∈ cs, ∀ v, chanField c "enabled" = some v → ∃ b, v = .bool b) :
    validateConfig (.dict kvs) = .ok (.dict (yset kvs "channels" (.list cs'))) ∧
    cs'.length = cs.length ∧
    (∀ j (hj : j < cs.length) (hj' : j < cs'.length),
      chanField (cs'.get ⟨j, hj'⟩) "name" =
        some ((chanField (cs.get ⟨j, hj⟩) "name").getD
          (.str ("Channel " ++ toString (j + 1)))) ∧
      chanField (cs'.get ⟨j, hj'⟩) "enabled" =
        some ((chanField (cs.get ⟨j, hj⟩) "enabled").getD (.bool true))) ∧
    getEnabledChannels (.dict (yset kvs "channels" (.list cs'))) =
      cs'.filter (fun c => match chanField c "enabled" with
        | some (.bool b) => b
        | _ => false) := by
  obtain ⟨cks, hcks, hcs'⟩ := validateChannels_ok_struct cs 0 cs' hv
  subst hcks
  subst hcs'
  have hempty : (cks.map YVal.dict).isEmpty = false := by
    cases cks with
    | nil => exact absurd rfl hne
    | cons a t => rfl
  refine ⟨?_, ?_, ?_, ?_⟩
  · simp [validateConfig_dict, hch, hempty, hv]
  · simp [applyDefaultsFrom_length]
  · intro j hj hj'
    have hjk : j < cks.length := by simpa using hj
    have hget : (cks.map YVal.dict).get ⟨j, hj⟩ = .dict (cks.get ⟨j, hjk⟩) := by
      simp
    rw [applyDefaultsFrom_get cks 0 j hjk hj', hget]
    constructor
    · show yget (applyChannelDefaults (0 + j) (cks.get ⟨j, hjk⟩)) "name" = _
      rw [Nat.zero_add, applyChannelDefaults_name]
      rfl
    · show yget (applyChannelDefaults (0 + j) (cks.get ⟨j, hjk⟩)) "enabled" = _
      rw [Nat.zero_add, applyChannelDefaults_enabled]
      rfl
  · have hchan : yget (yset kvs "channels" (.list (applyDefaultsFrom 0 cks)))
        "channels" = some (.list (applyDefaultsFrom 0 cks)) :=
      yget_yset_self kvs "channels" (.list (applyDefaultsFrom 0 cks))
    show (match yget (yset kvs "channels" (.list (applyDefaultsFrom 0 cks)))
          "channels" with
        | some (.list l) => l
        | _ => []).filter _ = _
    rw [hchan]
    apply List.filter_congr
    intro x hx
    obtain ⟨j, ck, hm, rfl⟩ := applyDefaultsFrom_mem cks 0 x hx
    have hen := applyChannelDefaults_enabled j ck
    have hb : ∃ b, (yget ck "enabled").getD (.bool true) = .bool b := by
      rcases hg : yget ck "enabled" with _ | v
      · exact ⟨true, rfl⟩
      · obtain ⟨b, hvb⟩ := henb (.dict ck) (List.mem_map_of_mem YVal.dict hm) v hg
        exact ⟨b, by rw [hvb]; rfl⟩
    obtain ⟨b, hb⟩ := hb
    show truthy ((yget (applyChannelDefaults j ck) "enabled").getD (.bool true)) = _
    rw [hen, hb]
    show truthy (.bool b) = _
    have : chanField (.dict (applyChannelDefaults j ck)) "enabled" =
        some (.bool b) := by
      show yget (applyChannelDefaults j ck) "enabled" = some (.bool b)
      rw [hen, hb]
    rw [this]
    rfl

/-- C7 witness: a two-channel config whose first channel is disabled and
whose second channel has no name validates to defaulted channels, and the
enabled-channel accessor returns exactly the second channel, now named
"Channel 2". -/
theorem c7_witness :
    getEnabledChannels (.dict (yset [("channels", .list
        [.dict [("url", .str "u"), ("enabled", .bool false)],
         .dict [("url", .str "w")]])] "channels" (.list
        [.dict [("url", .str "u"), ("enabled", .bool false),
          ("name", .str "Channel 1")],
         .dict [("url", .str "w"), ("enabled", .bool true),
          ("name", .str "Channel 2")]]))) =
      [.dict [("url", .str "w"), ("enabled", .bool true),
        ("name", .str "Channel 2")]] := by
  exact (c7_validate_defaults
    [("channels", .list
      [.dict [("url", .str "u"), ("enabled", .bool false)],
       .dict [("url", .str "w")]])]
    [.dict [("url", .str "u"), ("enabled", .bool false)],
     .dict [("url", .str "w")]]
    [.dict [("url", .str "u"), ("enabled", .bool false),
      ("name", .str "Channel 1")],
     .dict [("url", .str "w"), ("enabled", .bool true),
      ("name", .str "Channel 2")]]
    rfl
    (by intro h; exact List.noConfusion h)
    rfl
    (by
      intro c hc v hveq
      rcases List.mem_cons.mp hc with rfl | hc2
      · have h2 : (some (YVal.bool false) : Option YVal) = some v := hveq
        exact ⟨false, (Option.some.inj h2).symm⟩
      · rcases List.mem_cons.mp hc2 with rfl | hc3
        · have h2 : (none : Option YVal) = some v := hveq
          exact Option.noConfusion h2
        · cases hc3)).2.2.2

/-- Validation never reports a missing file. -/
theorem validateConfig_ne_notFound (cfg : YVal) :
    validateConfig cfg ≠ .error .notFound := by
  cases cfg with
  | null => simp [validateConfig, ymem]
  | bool b => simp [validateConfig, ymem]
  | str s =>
      by_cases hm : (("channels" : String).data <:+: s.data)
      · simp [validateConfig, ymem, hm]
      · simp [validateConfig, ymem, hm]
  | list xs =>
      cases hany : xs.any (fun x => match x with | .str s => s = "channels" | _ => false) with
      | true => simp [validateConfig, ymem, hany]
      | false => simp [validateConfig, ymem, hany]
  | dict kvs =>
      rw [validateConfig_dict]
      rcases hy : yget kvs "channels" with _ | chv
      · simp
      · cases chv with
        | list chans =>
            by_cases he : (chans.isEmpty : Prop)
            · simp [he]
            · rcases validateChannels_error_shape chans 0 with ⟨cs', hok⟩ | ⟨m, herr⟩
              · simp [he, hok]
              · simp [he, herr]
        | null => simp
        | bool b => simp
        | str t => simp
        | dict kvs2 => simp

/-- On an existing file parsing to a mapping, loading is exactly validating
that mapping (a falsy empty mapping is replaced by itself). -/
theorem load_ok_dict (kvs : List (String × YVal)) :
    ConfigLoader.load true (.ok (.dict kvs)) = validateConfig (.dict kvs) := by
  cases kvs with
  | nil => rfl
  | cons a t => rfl

/-- C8 counterexample: a config file whose content parses to the boolean
true has no channel list key, yet loading fails with a type error (the
membership test on a boolean raises in the source), not with a validation
error as the claim requires for every such config. -/
theorem c8_counterexample :
    ConfigLoader.load true (.ok (.bool true)) = .error .typeError ∧
    ∀ m, ConfigLoader.load true (.ok (.bool true)) ≠
      .error (.validationError m) := by
  refine ⟨rfl, ?_⟩
  intro m h
  rw [show ConfigLoader.load true (.ok (.bool true)) = .error .typeError from rfl] at h
  injection h with h2
  exact LoadErr.noConfusion h2

/-- C8 amended: load fails with NotFound exactly when the file is missing,
with a ParseError when the text is invalid, and — for parse results that are
mappings (or falsy values, which collapse to the empty mapping) — with a
ValidationError exactly when the channel list key is missing, is not a list,
is empty, or some entry is not a mapping or lacks a url; otherwise it
returns the config with the validated channel list stored back.  A truthy
list top level none of whose elements is the string "channels", and a
truthy string top level not containing "channels", also fail with the
channels-missing ValidationError; a top level parsing to the boolean true
instead escapes with a type error (the separate counterexample). -/
theorem c8_load_errors (fileExists : Bool) (parsed : Except String YVal) :
    (ConfigLoader.load fileExists parsed = .error .notFound ↔ fileExists = false) ∧
    (∀ m, fileExists = true → parsed = .error m →
      ConfigLoader.load fileExists parsed =
        .error (.parseError ("Invalid YAML configuration: " ++ m))) ∧
    (∀ v, fileExists = true → parsed = .ok v → truthy v = false →
      ConfigLoader.load fileExists parsed =
        .error (.validationError "Configuration must contain channels key")) ∧
    (∀ kvs, fileExists = true → parsed = .ok (.dict kvs) →
      (((∃ m, ConfigLoader.load fileExists parsed = .error (.validationError m)) ↔
        ¬ ∃ cs, yget kvs "channels" = some (.list cs) ∧ cs ≠ [] ∧
          ∀ c ∈ cs, ∃ ck, c = .dict ck ∧ (yget ck "url").isSome) ∧
      ((∃ cs, yget kvs "channels" = some (.list cs) ∧ cs ≠ [] ∧
          ∀ c ∈ cs, ∃ ck, c = .dict ck ∧ (yget ck "url").isSome) →
        ∃ cs', ConfigLoader.load fileExists parsed =
          .ok (.dict (yset kvs "channels" (.list cs')))))) ∧
    (∀ xs, fileExists = true → parsed = .ok (.list xs) →
      xs.any (fun x => match x with | .str s => s = "channels" | _ => false) = false →
      ConfigLoader.load fileExists parsed =
        .error (.validationError "Configuration must contain channels key")) ∧
    (∀ s, fileExists = true → parsed = .ok (.str s) →
      ¬ (("channels" : String).data <:+: s.data) →
      ConfigLoader.load fileExists parsed =
        .error (.validationError "Configuration must contain channels key")) := by
  refine ⟨?_, ?_, ?_, ?_, ?_, ?_⟩
  · cases fileExists with
    | false => simp [ConfigLoader.load]
    | true =>
        constructor
        · intro h
          exfalso
          cases parsed with
          | error m =>
              rw [show ConfigLoader.load true (.error m) =
                .error (.parseError ("Invalid YAML configuration: " ++ m)) from rfl] at h
              injection h with h2
              exact LoadErr.noConfusion h2
          | ok v =>
              have h2 : validateConfig (if truthy v then v else .dict []) =
                  .error .notFound := h
              exact validateConfig_ne_notFound _ h2
        · intro h
          exact Bool.noConfusion h
  · intro m h1 h2
    subst h1
    subst h2
    rfl
  · intro v h1 h2 h3
    subst h1
    subst h2
    show validateConfig (if truthy v then v else .dict []) = _
    rw [h3]
    rfl
  · intro kvs h1 h2
    subst h1
    subst h2
    rw [load_ok_dict, validateConfig_dict]
    rcases hy : yget kvs "channels" with _ | chv
    · refine ⟨⟨fun _ => ?_, fun _ => ⟨_, rfl⟩⟩, ?_⟩
      · rintro ⟨cs, hcs, _⟩
        exact Option.noConfusion hcs
      · rintro ⟨cs, hcs, _⟩
        exact absurd hcs (by simp)
    · cases chv with
      | list chans =>
          by_cases he : (chans.isEmpty : Prop)
          · have hnil : chans = [] := List.isEmpty_iff.mp he
            subst hnil
            refine ⟨⟨fun _ => ?_, fun _ => ?_⟩, ?_⟩
            · rintro ⟨cs, hcs, hne, _⟩
              injection hcs with hcs2
              injection hcs2 with hcs3
              exact hne hcs3.symm
            · simp [he]
            · rintro ⟨cs, hcs, hne, _⟩
              injection hcs with hcs2
              injection hcs2 with hcs3
              exact absurd hcs3.symm hne
          · rcases validateChannels_error_shape chans 0 with ⟨cs', hok⟩ | ⟨m, herr⟩
            · have hall := (validateChannels_ok_iff chans 0).mp ⟨cs', hok⟩
              have hnil : chans ≠ [] := by
                intro hn
                subst hn
                exact he rfl
              refine ⟨⟨?_, fun hno => absurd ⟨chans, rfl, hnil, hall⟩ hno⟩, ?_⟩
              · rintro ⟨m, hm⟩
                simp [he, hok] at hm
              · intro _
                exact ⟨cs', by simp [he, hok]⟩
            · have hnall : ¬ ∀ c ∈ chans, ∃ ck, c = .dict ck ∧ (yget ck "url").isSome := by
                intro hall
                obtain ⟨cs', hok⟩ := (validateChannels_ok_iff chans 0).mpr hall
                rw [hok] at herr
                exact Except.noConfusion herr
              refine ⟨⟨fun _ => ?_, fun _ => ?_⟩, ?_⟩
              · rintro ⟨cs, hcs, _, hall⟩
                injection hcs with hcs2
                injection hcs2 with hcs3
                exact hnall (hcs3 ▸ hall)
              · exact ⟨m, by simp [he, herr]⟩
              · rintro ⟨cs, hcs, _, hall⟩
                injection hcs with hcs2
                injection hcs2 with hcs3
                exact absurd (hcs3 ▸ hall) hnall
      | null =>
          refine ⟨⟨fun _ => ?_, fun _ => ⟨_, rfl⟩⟩, ?_⟩
          · rintro ⟨cs, hcs, _⟩
            injection hcs with hcs2
            exact YVal.noConfusion hcs2
          · rintro ⟨cs, hcs, _⟩
            injection hcs with hcs2
            exact YVal.noConfusion hcs2
      | bool b =>
          refine ⟨⟨fun _ => ?_, fun _ => ⟨_, rfl⟩⟩, ?_⟩
          · rintro ⟨cs, hcs, _⟩
            injection hcs with hcs2
            exact YVal.noConfusion hcs2
          · rintro ⟨cs, hcs, _⟩
            injection hcs with hcs2
            exact YVal.noConfusion hcs2
      | str t =>
          refine ⟨⟨fun _ => ?_, fun _ => ⟨_, rfl⟩⟩, ?_⟩
          · rintro ⟨cs, hcs, _⟩
            injection hcs with hcs2
            exact YVal.noConfusion hcs2
          · rintro ⟨cs, hcs, _⟩
            injection hcs with hcs2
            exact YVal.noConfusion hcs2
      | dict kvs2 =>
          refine ⟨⟨fun _ => ?_, fun _ => ⟨_, rfl⟩⟩, ?_⟩
          · rintro ⟨cs, hcs, _⟩
            injection hcs with hcs2
            exact YVal.noConfusion hcs2
          · rintro ⟨cs, hcs, _⟩
            injection hcs with hcs2
            exact YVal.noConfusion hcs2
  · intro xs h1 h2 hmem
    subst h1
    subst h2
    show validateConfig (if truthy (.list xs) then .list xs else .dict []) = _
    cases xs with
    | nil => rfl
    | cons a t =>
        have ht : truthy (.list (a :: t)) = true := rfl
        rw [ht]
        simp only [if_pos rfl]
        simp [validateConfig, ymem, hmem]
  · intro s h1 h2 hsub
    subst h1
    subst h2
    show validateConfig (if truthy (.str s) then .str s else .dict []) = _
    by_cases hs : s = ""
    · subst hs
      rfl
    · have ht : truthy (.str s) = true := by
        simp [truthy, hs]
      rw [ht]
      simp only [if_pos rfl]
      simp [validateConfig, ymem, hsub]

/-- C8 witness: a missing file loads to the NotFound error. -/
theorem c8_witness :
    ConfigLoader.load false (.ok .null) = .error .notFound :=
  (c8_load_errors false (.ok .null)).1.mpr rfl

/-- The channel loop produces one outcome per enabled channel. -/
theorem processChannels_length (ex : Nat → Except String (List Video × String))
    (ep : Nat → Bool) : ∀ (chs : List YVal) (i : Nat),
    (processChannels i ex ep chs).length = chs.length := by
  intro chs
  induction chs with
  | nil => intro i; rfl
  | cons c cs ih => intro i; simp [processChannels, ih]

/-- The outcome at position j of the channel loop is the step function of
channel j alone, with the oracles sampled at its own position: no other
channel's failure can influence it. -/
theorem processChannels_get (ex : Nat → Except String (List Video × String))
    (ep : Nat → Bool) : ∀ (chs : List YVal) (i j : Nat)
    (hj : j < chs.length) (hj' : j < (processChannels i ex ep chs).length),
    (processChannels i ex ep chs).get ⟨j, hj'⟩ =
      channelStep (i + j) (chs.get ⟨j, hj⟩) (ex (i + j)) (ep (i + j)) := by
  intro chs
  induction chs with
  | nil =>
      intro i j hj _
      exact absurd hj (by simp)
  | cons c cs ih =>
      intro i j hj hj'
      cases j with
      | zero => simp [processChannels]
      | succ j =>
          have hj2 : j < cs.length := Nat.lt_of_succ_lt_succ hj
          have hj2' : j < (processChannels (i + 1) ex ep cs).length := by
            rw [processChannels_length]
            exact hj2
          have harith : i + 1 + j = i + (j + 1) := by omega
          simpa [processChannels, harith] using ih (i + 1) j hj2 hj2'

/-- C9: a configuration loader failure makes the batch exit with code 1
before any channel is attempted; after a successful load the run exits with
code 0 and processes every enabled channel, the outcome at each position
being the step function of that channel with its own backend and export
outcomes only, so one channel's failure leaves the others' exports intact;
in particular, with three enabled channels whose second extraction fails,
channels one and three still export and the run ends normally. -/
theorem c9_batch_isolation :
    (∀ (parsed : Except String YVal) (e : LoadErr)
        (ex : Nat → Except String (List Video × String)) (ep : Nat → Bool),
      ConfigLoader.load true parsed = .error e →
      runBatch true parsed ex ep = (1, [])) ∧
    (∀ parsed cfg ex ep, ConfigLoader.load true parsed = .ok cfg →
      (runBatch true parsed ex ep).1 = 0 ∧
      (runBatch true parsed ex ep).2.length = (getEnabledChannels cfg).length ∧
      (∀ j (hj : j < (getEnabledChannels cfg).length)
        (hj' : j < (runBatch true parsed ex ep).2.length),
        (runBatch true parsed ex ep).2.get ⟨j, hj'⟩ =
          channelStep (1 + j) ((getEnabledChannels cfg).get ⟨j, hj⟩)
            (ex (1 + j)) (ep (1 + j)))) ∧
    runBatch true (.ok (.dict [("channels", .list
        [.dict [("url", .str "u1"), ("name", .str "One")],
         .dict [("url", .str "u2"), ("name", .str "Two")],
         .dict [("url", .str "u3"), ("name", .str "Three")]])]))
      (fun j => if j = 2 then .error "boom"
        else .ok ([⟨some "a", some "t", some "d", some "u", some "20200101"⟩], "X"))
      (fun _ => true) =
      (0, [.exported (.str "One"), .failedExtract, .exported (.str "Three")]) := by
  refine ⟨?_, ?_, ?_⟩
  · intro parsed e ex ep h
    unfold runBatch
    rw [h]
  · intro parsed cfg ex ep h
    unfold runBatch
    rw [h]
    exact ⟨rfl, processChannels_length ex ep _ 1,
      fun j hj hj' => processChannels_get ex ep _ 1 j hj hj'⟩
  · rfl

/-- C9 witness: a parse failure aborts the whole batch with exit code 1 and
no channel outcomes. -/
theorem c9_witness :
    runBatch true (.error "x") (fun _ => .error "e") (fun _ => true) = (1, []) :=
  c9_batch_isolation.1 (.error "x")
    (.parseError "Invalid YAML configuration: x")
    (fun _ => .error "e") (fun _ => true) rfl

/-- C1: evaluation of the batch loop at a config whose first channel is
disabled and whose second declares no name.  Validation names the second
channel "Channel 2" (its 1-based position in the unfiltered list), but the
loop compares that stored name against "Channel 1" (its position among the
enabled channels), so the comparison fails and the export keeps the
placeholder "Channel 2" instead of the extracted name "Real Name",
contradicting the claim and the source's own comment that the extracted
name is used when the config declared none. -/
theorem c1_placeholder_not_replaced :
    runBatch true (.ok (.dict [("channels", .list
        [.dict [("url", .str "u1"), ("enabled", .bool false)],
         .dict [("url", .str "u2")]])]))
      (fun _ => .ok ([⟨some "a", some "t", some "d", some "u", some "20200101"⟩],
        "Real Name"))
      (fun _ => true) =
      (0, [.exported (.str "Channel 2")]) := by
  rfl

end YtExtractor
